import Mathlib

/-!
# Verification of the caching decorator (`src/caching.py`)

A shallow embedding of the key-derivation and crash-consistent persistence
protocol of the `cached` decorator in `src/caching.py`, together with proofs
of the specification claims.

The embedding models:
* Python argument binding (`inspect.signature(func).bind(*args, **kwargs)`
  followed by `apply_defaults()`) for plain positional-or-keyword parameters;
* the `cache_keys` / `exclude_args` validation (lines 100-120);
* cache-path construction in literal and digest (`hash_all`, SHA-512) modes
  (lines 121-155);
* the read/write protocol over the `.pickle` data file and `.success`
  marker file (lines 156-189), as a function from a filesystem state to a
  result, a new filesystem state, and a trace of file-operation events.
-/

/-- Python values that may appear as arguments or results of a cached
function in this development.  `pyStr` below mirrors Python `str()` on
these values, which is what `f"{key}_{val}"` uses. -/
inductive PyValue where
  | int (n : Int)
  | bool (b : Bool)
  | str (s : String)
  | pyNone
deriving DecidableEq

/-- Python `str()` on a `PyValue`, as used by the f-string `f"{key}_{val}"`
in `src/caching.py` lines 126 and 142. -/
def pyStr : PyValue → String
  | PyValue.int n => toString n
  | PyValue.bool b => if b then "True" else "False"
  | PyValue.str s => s
  | PyValue.pyNone => "None"

/-- One declared parameter of the wrapped function: its name and its declared
default value, if any (from `inspect.signature`). -/
structure Param where
  name : String
  default : Option PyValue
deriving DecidableEq

/-- First-match association-list lookup (Python `dict` access for the
dictionaries appearing in this development, whose keys are unique). -/
def alookup {α : Type} (k : String) : List (String × α) → Option α
  | [] => Option.none
  | (k2, v) :: tl => if k2 = k then some v else alookup k tl

/-- Errors raised by `inspect.Signature.bind` (as `TypeError` in Python). -/
inductive BindError where
  | tooManyPositional
  | multipleValues (k : String)
  | unexpectedKeyword (k : String)
  | missingArgument (k : String)
deriving DecidableEq

/-- Phase one of `inspect.Signature.bind`: walk the positional arguments
against the leading declared parameters, in order.  A positional argument
left when the parameters are exhausted is a `TypeError`
(`too many positional arguments`); a positionally bound parameter whose
name also appears among the keyword arguments is a `TypeError`
(`multiple values for argument`), raised at the position where the walk
reaches it.  On success, returns the positional bindings together with the
remaining (positionally unconsumed) parameters. -/
def bindPositional (kwargs : List (String × PyValue)) :
    List Param → List PyValue →
    Except BindError (List (String × PyValue) × List Param)
  | ps, [] => Except.ok ([], ps)
  | [], _ :: _ => Except.error BindError.tooManyPositional
  | p :: ps, v :: vs =>
    match alookup p.name kwargs with
    | some _ => Except.error (BindError.multipleValues p.name)
    | Option.none =>
      match bindPositional kwargs ps vs with
      | Except.error e => Except.error e
      | Except.ok (bound, rem) => Except.ok ((p.name, v) :: bound, rem)

/-- Phase two of `inspect.Signature.bind`, combined with
`apply_defaults()`: bind each remaining declared parameter, in declared
order, to its keyword argument if present, else to its declared default; a
parameter with neither is a `TypeError` (`missing a required argument`),
raised while iterating the parameters — hence before any leftover keyword
argument is considered. -/
def bindKeyword (kwargs : List (String × PyValue)) :
    List Param → Except BindError (List (String × PyValue))
  | [] => Except.ok []
  | p :: ps =>
    match alookup p.name kwargs with
    | some v =>
      match bindKeyword kwargs ps with
      | Except.error e => Except.error e
      | Except.ok rest => Except.ok ((p.name, v) :: rest)
    | Option.none =>
      match p.default with
      | some d =>
        match bindKeyword kwargs ps with
        | Except.error e => Except.error e
        | Except.ok rest => Except.ok ((p.name, d) :: rest)
      | Option.none => Except.error (BindError.missingArgument p.name)

/-- `inspect.signature(func).bind(*args, **kwargs)` followed by
`binding.apply_defaults()` (lines 97-99 of `src/caching.py`), for a
signature of plain positional-or-keyword parameters, with
`Signature.bind`'s error precedence: first the positional walk (too many
positional arguments, or a keyword repeating a positionally bound
parameter), then the remaining parameters in declared order (missing a
required argument), and only last a leftover keyword argument naming no
remaining parameter (unexpected keyword argument, first in keyword order).
On success the result maps every declared parameter, in declared order, to
its bound or default value. -/
def bindArgs (params : List Param) (args : List PyValue)
    (kwargs : List (String × PyValue)) :
    Except BindError (List (String × PyValue)) :=
  match bindPositional kwargs params args with
  | Except.error e => Except.error e
  | Except.ok (bound, rem) =>
    match bindKeyword kwargs rem with
    | Except.error e => Except.error e
    | Except.ok rest =>
      match kwargs.find? (fun kv => !(rem.any (fun p => p.name == kv.1))) with
      | some kv => Except.error (BindError.unexpectedKeyword kv.1)
      | Option.none => Except.ok (bound ++ rest)

/-- The `CacheUsageError` cases raised in lines 100-120 of `src/caching.py`. -/
inductive ConfigErr where
  | missingCacheKey (k : String)
  | missingExcludeArg (k : String)
  | bothProvided
deriving DecidableEq

/-- The first element of `ks` that is not among `names`, if any: the loop
`for cache_key in cache_keys: if cache_key not in binding.arguments: raise`. -/
def firstMissing (names : List String) : List String → Option String
  | [] => Option.none
  | k :: ks => if names.contains k then firstMissing names ks else some k

/-- The validation of `cache_keys` and `exclude_args` against the bound
argument names, in the order the code performs it (lines 100-120):
first each `cache_keys` entry, then each `exclude_args` entry, then the
check that not both were provided. -/
def validatePolicy (names : List String)
    (cacheKeys excludeArgs : Option (List String)) : Option ConfigErr :=
  match (match cacheKeys with
         | Option.none => Option.none
         | some ks => firstMissing names ks) with
  | some k => some (ConfigErr.missingCacheKey k)
  | Option.none =>
    match (match excludeArgs with
           | Option.none => Option.none
           | some ex => firstMissing names ex) with
    | some k => some (ConfigErr.missingExcludeArg k)
    | Option.none =>
      if cacheKeys.isSome && excludeArgs.isSome then
        some ConfigErr.bothProvided
      else
        Option.none

/-!
## SHA-512 (`hashlib.sha512(...).hexdigest()`)

A faithful executable model of SHA-512 (FIPS 180-4) over byte lists, with
64-bit words represented as natural numbers reduced modulo `2 ^ 64`.
`hash_all` (lines 65-67 of `src/caching.py`) is defined on top of it.
-/

/-- `2 ^ 64`, the modulus of 64-bit word arithmetic. -/
def word64Mod : Nat := 18446744073709551616

/-- 64-bit modular addition. -/
def wAdd (a b : Nat) : Nat := (a + b) % word64Mod

/-- 64-bit right rotation (for `0 < n < 64` and `x < 2 ^ 64`). -/
def rotr (x n : Nat) : Nat := ((x >>> n) ||| (x <<< (64 - n))) % word64Mod

/-- 64-bit bitwise complement. -/
def wNot (x : Nat) : Nat := x ^^^ (word64Mod - 1)

/-- SHA-512 `Ch(e, f, g)`. -/
def chFn (x y z : Nat) : Nat := (x &&& y) ^^^ (wNot x &&& z)

/-- SHA-512 `Maj(a, b, c)`. -/
def majFn (x y z : Nat) : Nat := (x &&& y) ^^^ (x &&& z) ^^^ (y &&& z)

/-- SHA-512 `Σ0`. -/
def bigSigma0 (x : Nat) : Nat := rotr x 28 ^^^ rotr x 34 ^^^ rotr x 39

/-- SHA-512 `Σ1`. -/
def bigSigma1 (x : Nat) : Nat := rotr x 14 ^^^ rotr x 18 ^^^ rotr x 41

/-- SHA-512 `σ0`. -/
def smallSigma0 (x : Nat) : Nat := rotr x 1 ^^^ rotr x 8 ^^^ (x >>> 7)

/-- SHA-512 `σ1`. -/
def smallSigma1 (x : Nat) : Nat := rotr x 19 ^^^ rotr x 61 ^^^ (x >>> 6)

/-- The 80 SHA-512 round constants. -/
def K512 : List Nat :=
  [0x428A2F98D728AE22, 0x7137449123EF65CD, 0xB5C0FBCFEC4D3B2F,
   0xE9B5DBA58189DBBC, 0x3956C25BF348B538, 0x59F111F1B605D019,
   0x923F82A4AF194F9B, 0xAB1C5ED5DA6D8118, 0xD807AA98A3030242,
   0x12835B0145706FBE, 0x243185BE4EE4B28C, 0x550C7DC3D5FFB4E2,
   0x72BE5D74F27B896F, 0x80DEB1FE3B1696B1, 0x9BDC06A725C71235,
   0xC19BF174CF692694, 0xE49B69C19EF14AD2, 0xEFBE4786384F25E3,
   0x0FC19DC68B8CD5B5, 0x240CA1CC77AC9C65, 0x2DE92C6F592B0275,
   0x4A7484AA6EA6E483, 0x5CB0A9DCBD41FBD4, 0x76F988DA831153B5,
   0x983E5152EE66DFAB, 0xA831C66D2DB43210, 0xB00327C898FB213F,
   0xBF597FC7BEEF0EE4, 0xC6E00BF33DA88FC2, 0xD5A79147930AA725,
   0x06CA6351E003826F, 0x142929670A0E6E70, 0x27B70A8546D22FFC,
   0x2E1B21385C26C926, 0x4D2C6DFC5AC42AED, 0x53380D139D95B3DF,
   0x650A73548BAF63DE, 0x766A0ABB3C77B2A8, 0x81C2C92E47EDAEE6,
   0x92722C851482353B, 0xA2BFE8A14CF10364, 0xA81A664BBC423001,
   0xC24B8B70D0F89791, 0xC76C51A30654BE30, 0xD192E819D6EF5218,
   0xD69906245565A910, 0xF40E35855771202A, 0x106AA07032BBD1B8,
   0x19A4C116B8D2D0C8, 0x1E376C085141AB53, 0x2748774CDF8EEB99,
   0x34B0BCB5E19B48A8, 0x391C0CB3C5C95A63, 0x4ED8AA4AE3418ACB,
   0x5B9CCA4F7763E373, 0x682E6FF3D6B2B8A3, 0x748F82EE5DEFB2FC,
   0x78A5636F43172F60, 0x84C87814A1F0AB72, 0x8CC702081A6439EC,
   0x90BEFFFA23631E28, 0xA4506CEBDE82BDE9, 0xBEF9A3F7B2C67915,
   0xC67178F2E372532B, 0xCA273ECEEA26619C, 0xD186B8C721C0C207,
   0xEADA7DD6CDE0EB1E, 0xF57D4F7FEE6ED178, 0x06F067AA72176FBA,
   0x0A637DC5A2C898A6, 0x113F9804BEF90DAE, 0x1B710B35131C471B,
   0x28DB77F523047D84, 0x32CAAB7B40C72493, 0x3C9EBE0A15C9BEBC,
   0x431D67C49C100D4C, 0x4CC5D4BECB3E42B6, 0x597F299CFC657E2A,
   0x5FCB6FAB3AD6FAEC, 0x6C44198C4A475817]

/-- The eight 64-bit working registers of the SHA-512 compression function. -/
structure Hash8 where
  a : Nat
  b : Nat
  c : Nat
  d : Nat
  e : Nat
  f : Nat
  g : Nat
  h : Nat
deriving DecidableEq

/-- The SHA-512 initial hash value. -/
def initH512 : Hash8 :=
  ⟨0x6A09E667F3BCC908, 0xBB67AE8584CAA73B, 0x3C6EF372FE94F82B,
   0xA54FF53A5F1D36F1, 0x510E527FADE682D1, 0x9B05688C2B3E6C1F,
   0x1F83D9ABFB41BD6B, 0x5BE0CD19137E2179⟩

/-- One SHA-512 round, consuming one `(round constant, schedule word)` pair. -/
def roundStep (st : Hash8) (kw : Nat × Nat) : Hash8 :=
  let t1 := wAdd (wAdd (wAdd (wAdd st.h (bigSigma1 st.e)) (chFn st.e st.f st.g)) kw.1) kw.2
  let t2 := wAdd (bigSigma0 st.a) (majFn st.a st.b st.c)
  ⟨wAdd t1 t2, st.a, st.b, st.c, wAdd st.d t1, st.e, st.f, st.g⟩

/-- `n` big-endian bytes of a natural number (most significant first). -/
def toBytesBE : Nat → Nat → List Nat
  | 0, _ => []
  | k + 1, n => toBytesBE k (n / 256) ++ [n % 256]

/-- A big-endian byte list read as a natural number. -/
def bytesToWord (bs : List Nat) : Nat := bs.foldl (fun acc b => acc * 256 + b) 0

/-- The 16 initial 64-bit message-schedule words of one 128-byte block. -/
def blockWords (block : List Nat) : List Nat :=
  (List.range 16).map (fun i => bytesToWord ((block.drop (8 * i)).take 8))

/-- Extend the 16 block words to the 80-word SHA-512 message schedule. -/
def msgSchedule (w16 : List Nat) : List Nat :=
  (List.range 64).foldl
    (fun w _ =>
      let t := w.length
      w ++ [wAdd (wAdd (smallSigma1 (w.getD (t - 2) 0)) (w.getD (t - 7) 0))
                 (wAdd (smallSigma0 (w.getD (t - 15) 0)) (w.getD (t - 16) 0))])
    w16

/-- Process one 128-byte block. -/
def compressBlock (st : Hash8) (block : List Nat) : Hash8 :=
  let ws := msgSchedule (blockWords block)
  let r := (K512.zip ws).foldl roundStep st
  ⟨wAdd st.a r.a, wAdd st.b r.b, wAdd st.c r.c, wAdd st.d r.d,
   wAdd st.e r.e, wAdd st.f r.f, wAdd st.g r.g, wAdd st.h r.h⟩

/-- SHA-512 message padding: append `0x80`, zero bytes up to 112 mod 128,
then the 128-bit big-endian bit length. -/
def padMessage (bytes : List Nat) : List Nat :=
  let len := bytes.length
  let k := (128 + 112 - ((len + 1) % 128)) % 128
  bytes ++ [0x80] ++ List.replicate k 0 ++ toBytesBE 16 (8 * len)

/-- The padded message split into 128-byte blocks (the padded length is
always a multiple of 128). -/
def chunks128 (l : List Nat) : List (List Nat) :=
  (List.range (l.length / 128)).map (fun i => (l.drop (128 * i)).take 128)

/-- SHA-512 of a byte list, as the final eight 64-bit hash words. -/
def sha512Words (bytes : List Nat) : List Nat :=
  let st := (chunks128 (padMessage bytes)).foldl compressBlock initH512
  [st.a, st.b, st.c, st.d, st.e, st.f, st.g, st.h]

/-- The UTF-8 encoding of one character (Python `str.encode("utf-8")`). -/
def utf8Bytes (c : Char) : List Nat :=
  let n := c.toNat
  if n < 0x80 then [n]
  else if n < 0x800 then [0xC0 + n / 64, 0x80 + n % 64]
  else if n < 0x10000 then
    [0xE0 + n / 4096, 0x80 + (n / 64) % 64, 0x80 + n % 64]
  else
    [0xF0 + n / 262144, 0x80 + (n / 4096) % 64, 0x80 + (n / 64) % 64, 0x80 + n % 64]

/-- The UTF-8 bytes of a string. -/
def strBytes (s : String) : List Nat := (s.data.map utf8Bytes).flatten

/-- The lowercase hexadecimal digit for `n < 16`. -/
def hexDigitChar (n : Nat) : Char :=
  if n < 10 then Char.ofNat (48 + n) else Char.ofNat (87 + n)

/-- Exactly `k` lowercase hexadecimal digits of `w`, most significant first. -/
def toHexPad : Nat → Nat → List Char
  | 0, _ => []
  | k + 1, w => toHexPad k (w / 16) ++ [hexDigitChar (w % 16)]

/-- `hashlib.sha512(s.encode("utf-8")).hexdigest()`: the 128-character
lowercase hexadecimal digest of the UTF-8 bytes of `s`. -/
def sha512hex (s : String) : String :=
  String.mk ((sha512Words (strBytes s)).map (toHexPad 16)).flatten

/-- `hash_all` from `src/caching.py` lines 65-67: hash each string, join the
hex digests, and hash the concatenation. -/
def hash_all (xs : List String) : String :=
  sha512hex (String.join (xs.map sha512hex))

/-!
## Cache-path construction (lines 121-155)
-/

/-- The filter applied to the bound arguments in lines 128-131 and 144-148:
`((cache_keys is None) or (key in cache_keys)) and
((exclude_args is None) or (key not in exclude_args))`. -/
def keepPair (cacheKeys excludeArgs : Option (List String)) (key : String) : Bool :=
  (match cacheKeys with
   | Option.none => true
   | some ks => ks.contains key)
  &&
  (match excludeArgs with
   | Option.none => true
   | some ex => !(ex.contains key))

/-- The f-string `f"{key}_{val}"` of lines 126 and 142. -/
def pairStr (kv : String × PyValue) : String := kv.1 ++ "_" ++ pyStr kv.2

/-- The `path` list of lines 121-153: in literal mode one `key_val` segment
per surviving pair, in digest mode a single `hash_all` segment, between
`[cache_dir, func.__name__]` and `["result"]`.  The stringification and the
filter are written out in each branch exactly as the source duplicates
them. -/
def cachePath (cacheDir funcName : String) (useHash : Bool)
    (cacheKeys excludeArgs : Option (List String))
    (binding : List (String × PyValue)) : List String :=
  if !useHash then
    [cacheDir] ++ [funcName]
      ++ (binding.filter (fun kv => keepPair cacheKeys excludeArgs kv.1)).map pairStr
      ++ ["result"]
  else
    [cacheDir] ++ [funcName]
      ++ [hash_all
            ((binding.filter (fun kv => keepPair cacheKeys excludeArgs kv.1)).map
              pairStr)]
      ++ ["result"]

/-- `os.path.join(*segs)` for relative segments. -/
def joinPath (segs : List String) : String := String.intercalate "/" segs

/-!
## Filesystem model and the traced cached call (lines 92-189)
-/

/-- Contents of a file in the model: either a pickled `PyValue` (written by
`pickle.dump`) or raw text (the marker's `"SUCCESS\n"`, or corrupt bytes). -/
inductive FileData where
  | pickled (v : PyValue)
  | raw (s : String)
deriving DecidableEq

/-- `pickle.load`: succeeds exactly on well-formed pickled data. -/
def unpickleData : FileData → Option PyValue
  | FileData.pickled v => some v
  | FileData.raw _ => Option.none

/-- A filesystem state: an association list from paths to file contents in
which the most recent write shadows earlier entries. -/
structure FileSystem where
  entries : List (String × FileData)
deriving DecidableEq

/-- The contents of the file at `p`, if it exists. -/
def FileSystem.read (fs : FileSystem) (p : String) : Option FileData :=
  alookup p fs.entries

/-- `os.path.isfile(p)`. -/
def FileSystem.isfile (fs : FileSystem) (p : String) : Bool :=
  (fs.read p).isSome

/-- Create or overwrite the file at `p`. -/
def FileSystem.set (fs : FileSystem) (p : String) (d : FileData) : FileSystem :=
  ⟨(p, d) :: fs.entries⟩

/-- The observable operations performed by one call of the decorated
function, in program order. -/
inductive Event where
  | bindCall
  | checkPolicy
  | checkFile (p : String)
  | openRead (p : String)
  | compute
  | makedirs (p : String)
  | openWrite (p : String)
  | writeFile (p : String)
  | flushFile (p : String)
  | closeFile (p : String)
  | renameFile (src dst : String)
  | logRecovery
deriving DecidableEq

/-- The global state read by every call (`_CACHE_DIR`, `_HASH`) together
with the decoration arguments (`cache_keys`, `exclude_args`). -/
structure CacheConfig where
  cacheDir : String
  useHash : Bool
  cacheKeys : Option (List String)
  excludeArgs : Option (List String)
deriving DecidableEq

/-- Ways a call can fail: a `TypeError` from `signature.bind`, a
`CacheUsageError` from policy validation, or the two corruption
`Exception`s of lines 158 and 166. -/
inductive CallError where
  | bindError (e : BindError)
  | configError (e : ConfigErr)
  | corruptMissingData
  | corruptUnpickle
deriving DecidableEq

/-- The `path` list derived by a call with bound arguments `binding`. -/
def entryPathOf (cfg : CacheConfig) (funcName : String)
    (binding : List (String × PyValue)) : List String :=
  cachePath cfg.cacheDir funcName cfg.useHash cfg.cacheKeys cfg.excludeArgs binding

/-- `filename = os.path.join(*path) + ".pickle"` (line 155). -/
def dataFileOf (cfg : CacheConfig) (funcName : String)
    (binding : List (String × PyValue)) : String :=
  joinPath (entryPathOf cfg funcName binding) ++ ".pickle"

/-- `success_token_filename = os.path.join(*path) + ".success"` (line 154). -/
def markerFileOf (cfg : CacheConfig) (funcName : String)
    (binding : List (String × PyValue)) : String :=
  joinPath (entryPathOf cfg funcName binding) ++ ".success"

/-- One call of the decorated function `r_res_res` (lines 92-189), modelled
as a function from the pre-call filesystem to the call's result, the
post-call filesystem, and the trace of operations in program order:
bind and apply defaults, validate the policy, derive the path, then either
serve the cached value (marker present), report corruption, or invoke the
computation and write the data file followed by the marker file. -/
def cachedCall (cfg : CacheConfig) (funcName : String) (params : List Param)
    (func : List (String × PyValue) → PyValue)
    (args : List PyValue) (kwargs : List (String × PyValue))
    (fs : FileSystem) :
    Except CallError PyValue × FileSystem × List Event :=
  match bindArgs params args kwargs with
  | Except.error e => (Except.error (CallError.bindError e), fs, [Event.bindCall])
  | Except.ok binding =>
    match validatePolicy (binding.map Prod.fst) cfg.cacheKeys cfg.excludeArgs with
    | some ce =>
      (Except.error (CallError.configError ce), fs, [Event.bindCall, Event.checkPolicy])
    | Option.none =>
      let successTokenFilename := markerFileOf cfg funcName binding
      let filename := dataFileOf cfg funcName binding
      let pre := [Event.bindCall, Event.checkPolicy, Event.checkFile successTokenFilename]
      if fs.isfile successTokenFilename then
        match fs.read filename with
        | Option.none =>
          (Except.error CallError.corruptMissingData, fs,
            pre ++ [Event.checkFile filename])
        | some fd =>
          match unpickleData fd with
          | some v =>
            (Except.ok v, fs,
              pre ++ [Event.checkFile filename, Event.openRead filename,
                      Event.closeFile filename])
          | Option.none =>
            (Except.error CallError.corruptUnpickle, fs,
              pre ++ [Event.checkFile filename, Event.openRead filename,
                      Event.closeFile filename])
      else
        let recoveryEvents :=
          if fs.isfile filename then
            [Event.checkFile successTokenFilename, Event.logRecovery]
          else []
        let res := func binding
        let fs2 := (fs.set filename (FileData.pickled res)).set
          successTokenFilename (FileData.raw "SUCCESS\n")
        (Except.ok res, fs2,
          pre ++ [Event.checkFile filename] ++ recoveryEvents
            ++ [Event.compute,
                Event.makedirs (joinPath (entryPathOf cfg funcName binding).dropLast),
                Event.openWrite filename, Event.writeFile filename,
                Event.flushFile filename, Event.closeFile filename,
                Event.openWrite successTokenFilename,
                Event.writeFile successTokenFilename,
                Event.flushFile successTokenFilename,
                Event.closeFile successTokenFilename])

/-!
## Trace predicates
-/

/-- `securedBy good bad tr` scans `tr` left to right and is `true` iff no
occurrence of `bad` appears before the first occurrence of `good`: every
`bad` in the trace is strictly preceded by a `good`. -/
def securedBy (good bad : Event) : List Event → Bool
  | [] => true
  | e :: tr => if e = good then true else if e = bad then false else securedBy good bad tr

/-- Events that create, modify or delete a file or directory. -/
def isWriteEvent : Event → Bool
  | Event.makedirs _ => true
  | Event.openWrite _ => true
  | Event.writeFile _ => true
  | Event.flushFile _ => true
  | Event.renameFile _ _ => true
  | _ => false

/-- `true` iff the trace performs no filesystem mutation at all. -/
def writesNothing (tr : List Event) : Bool := tr.all (fun e => !isWriteEvent e)

/-- Whether the trace contains a rename operation. -/
def hasRename : List Event → Bool
  | [] => false
  | Event.renameFile _ _ :: _ => true
  | _ :: tr => hasRename tr

/-- Whether every file opened for writing in the trace is one of the two
given (final) paths. -/
def opensWritingOnly (d m : String) : List Event → Bool
  | [] => true
  | Event.openWrite p :: tr => (p == d || p == m) && opensWritingOnly d m tr
  | _ :: tr => opensWritingOnly d m tr

/-- The number of invocations of the wrapped computation in the trace. -/
def countCompute : List Event → Nat
  | [] => 0
  | Event.compute :: tr => countCompute tr + 1
  | _ :: tr => countCompute tr

/-- Whether a character is a lowercase hexadecimal digit. -/
def hexCharP (c : Char) : Bool := "0123456789abcdef".data.contains c

/-- Whether every character of `s` is a lowercase hexadecimal digit. -/
def isLowerHex (s : String) : Bool := s.data.all hexCharP

/-!
## The `exclude_if_default` variant (modelled from the spec)
-/

/-- The declared default of the parameter named `n`, if any. -/
def defaultOf (params : List Param) (n : String) : Option PyValue :=
  match params.find? (fun q => q.name == n) with
  | some q => q.default
  | Option.none => Option.none

/-- Modelled from the spec: the variant of the `cached` decorator invoked by
`src/example.py` with `exclude=["verbose"]` and `exclude_if_default=["z"]`
is not part of `src/caching.py` (whose `cached` takes only `cache_keys` and
`exclude_args`).  Following §4.1 of the spec, a pair is kept in the key
unless its name is listed in `exclude`, or its name is listed in
`exclude_if_default` and its bound value equals (by value) the parameter's
declared default. -/
def keepPairSpec (excl exclIfDef : List String) (params : List Param)
    (kv : String × PyValue) : Bool :=
  !(excl.contains kv.1) &&
  !(exclIfDef.contains kv.1 && (defaultOf params kv.1 == some kv.2))

/-- Modelled from the spec: the literal-mode cache path of the
`exclude` / `exclude_if_default` variant, with the same
`[cache_dir, name] ++ segments ++ ["result"]` shape as `cachePath` but the
filter of `keepPairSpec`. -/
def cachePathSpec (cacheDir funcName : String) (excl exclIfDef : List String)
    (params : List Param) (binding : List (String × PyValue)) : List String :=
  [cacheDir] ++ [funcName]
    ++ (binding.filter (keepPairSpec excl exclIfDef params)).map pairStr
    ++ ["result"]

/-!
## Helper lemmas
-/

lemma pickle_ne_success (s : String) : s ++ ".pickle" ≠ s ++ ".success" := by
  intro h
  have h2 := congrArg String.length h
  simp [String.length_append] at h2
  exact absurd h2 (by decide)

lemma alookup_eq_none_of_not_mem {α : Type} (k : String)
    (l : List (String × α)) (h : k ∉ l.map Prod.fst) :
    alookup k l = Option.none := by
  induction l with
  | nil => rfl
  | cons kv tl ih =>
    simp only [List.map_cons, List.mem_cons] at h
    push_neg at h
    cases kv with
    | mk k2 v =>
      simp only [alookup]
      rw [if_neg (fun he => h.1 he.symm)]
      exact ih h.2

lemma alookup_cons_ne {α : Type} (k k2 : String) (v : α)
    (l : List (String × α)) (h : k2 ≠ k) :
    alookup k ((k2, v) :: l) = alookup k l := by
  simp [alookup, h]

lemma alookup_ext {α : Type} :
    ∀ (l1 l2 : List (String × α)),
      l1.map Prod.fst = l2.map Prod.fst →
      (l1.map Prod.fst).Nodup →
      (∀ n, alookup n l1 = alookup n l2) → l1 = l2 := by
  intro l1
  induction l1 with
  | nil =>
    intro l2 hfst _ _
    cases l2 with
    | nil => rfl
    | cons kv tl => simp at hfst
  | cons kv tl ih =>
    intro l2 hfst hnd hlk
    cases l2 with
    | nil => simp at hfst
    | cons kv2 tl2 =>
      cases kv with
      | mk k v =>
        cases kv2 with
        | mk k2 v2 =>
          simp only [List.map_cons, List.cons.injEq] at hfst
          obtain ⟨hk, htl⟩ := hfst
          subst hk
          have hv : v = v2 := by
            have := hlk k
            simp [alookup] at this
            exact this
          subst hv
          simp only [List.map_cons, List.nodup_cons] at hnd
          have htlk : ∀ n, alookup n tl = alookup n tl2 := by
            intro n
            by_cases hn : n = k
            · subst hn
              rw [alookup_eq_none_of_not_mem n tl hnd.1,
                alookup_eq_none_of_not_mem n tl2 (htl ▸ hnd.1)]
            · have := hlk n
              rw [alookup_cons_ne n k v tl (fun he => hn he.symm),
                alookup_cons_ne n k v tl2 (fun he => hn he.symm)] at this
              exact this
          rw [ih tl2 htl hnd.2 htlk]

lemma bindPositional_nil (kwargs : List (String × PyValue)) (ps : List Param) :
    bindPositional kwargs ps [] = Except.ok ([], ps) := by
  cases ps <;> rfl

lemma bindPositional_fst (kwargs : List (String × PyValue)) :
    ∀ (args : List PyValue) (ps : List Param)
      (bound : List (String × PyValue)) (rem : List Param),
      bindPositional kwargs ps args = Except.ok (bound, rem) →
      bound.map Prod.fst ++ rem.map Param.name = ps.map Param.name ∧
      rem = ps.drop args.length := by
  intro args
  induction args with
  | nil =>
    intro ps bound rem h
    rw [bindPositional_nil] at h
    cases h
    exact ⟨rfl, rfl⟩
  | cons v vs ih =>
    intro ps bound rem h
    cases ps with
    | nil => cases h
    | cons p ps2 =>
      simp only [bindPositional] at h
      cases hlk : alookup p.name kwargs with
      | some w => rw [hlk] at h; cases h
      | none =>
        rw [hlk] at h
        cases hrec : bindPositional kwargs ps2 vs with
        | error e => rw [hrec] at h; cases h
        | ok br =>
          obtain ⟨b2, r2⟩ := br
          rw [hrec] at h
          cases h
          obtain ⟨ih1, ih2⟩ := ih ps2 b2 rem hrec
          refine ⟨?_, ?_⟩
          · simp only [List.map_cons, List.cons_append, ih1]
          · simpa using ih2

lemma bindKeyword_fst (kwargs : List (String × PyValue)) :
    ∀ (ps : List Param) (rest : List (String × PyValue)),
      bindKeyword kwargs ps = Except.ok rest →
      rest.map Prod.fst = ps.map Param.name := by
  intro ps
  induction ps with
  | nil =>
    intro rest h
    cases h
    rfl
  | cons p ps2 ih =>
    intro rest h
    simp only [bindKeyword] at h
    cases hlk : alookup p.name kwargs with
    | some v =>
      rw [hlk] at h
      cases hrec : bindKeyword kwargs ps2 with
      | error e => rw [hrec] at h; cases h
      | ok r2 =>
        rw [hrec] at h
        cases h
        simp [ih r2 hrec]
    | none =>
      rw [hlk] at h
      cases hd : p.default with
      | some d =>
        rw [hd] at h
        cases hrec : bindKeyword kwargs ps2 with
        | error e => rw [hrec] at h; cases h
        | ok r2 =>
          rw [hrec] at h
          cases h
          simp [ih r2 hrec]
      | none => rw [hd] at h; cases h

lemma bindArgs_fst (params : List Param) (args : List PyValue)
    (kwargs : List (String × PyValue)) (b : List (String × PyValue))
    (h : bindArgs params args kwargs = Except.ok b) :
    b.map Prod.fst = params.map Param.name := by
  unfold bindArgs at h
  split at h
  · cases h
  · rename_i bound rem h1
    split at h
    · cases h
    · rename_i rest h2
      split at h
      · cases h
      · cases h
        rw [List.map_append, bindKeyword_fst kwargs rem rest h2]
        exact (bindPositional_fst kwargs args params bound rem h1).1

lemma toHexPad_length (k : Nat) : ∀ w, (toHexPad k w).length = k := by
  induction k with
  | zero => intro w; rfl
  | succ k ih => intro w; simp [toHexPad, ih]

lemma hexDigitChar_hex : ∀ m, m < 16 → hexCharP (hexDigitChar m) = true := by
  decide

lemma toHexPad_hex (k : Nat) : ∀ w, (toHexPad k w).all hexCharP = true := by
  induction k with
  | zero => intro w; rfl
  | succ k ih =>
    intro w
    simp only [toHexPad, List.all_append, ih, Bool.true_and, List.all_cons,
      List.all_nil, Bool.and_true]
    exact hexDigitChar_hex (w % 16) (Nat.mod_lt w (by omega))

lemma flattenHex_length (ws : List Nat) :
    ((ws.map (toHexPad 16)).flatten).length = 16 * ws.length := by
  induction ws with
  | nil => rfl
  | cons w tl ih =>
    simp [toHexPad_length, ih, Nat.mul_succ]
    omega

lemma flattenHex_hex (ws : List Nat) :
    ((ws.map (toHexPad 16)).flatten).all hexCharP = true := by
  induction ws with
  | nil => rfl
  | cons w tl ih => simp [toHexPad_hex, ih]

lemma sha512Words_length (bs : List Nat) : (sha512Words bs).length = 8 := by
  simp [sha512Words]

lemma sha512hex_length (s : String) : (sha512hex s).length = 128 := by
  have h := flattenHex_length (sha512Words (strBytes s))
  rw [sha512Words_length] at h
  simpa [sha512hex, String.length] using h

lemma sha512hex_lowerHex (s : String) : isLowerHex (sha512hex s) = true := by
  simpa [sha512hex, isLowerHex] using flattenHex_hex (sha512Words (strBytes s))

/-!
## Claim theorems
-/

/-- C9: key encoding is total and deterministic: every CacheKey — including
the empty key arising from a zero-argument computation or a policy that
filters out every parameter — encodes, in both literal and digest modes, to
a valid, non-empty path segment sequence (at least three segments, with the
cache directory first and `"result"` last). -/
theorem c9_encoding_total_nonempty (cacheDir funcName : String) (useHash : Bool)
    (cacheKeys excludeArgs : Option (List String))
    (binding : List (String × PyValue)) :
    3 ≤ (cachePath cacheDir funcName useHash cacheKeys excludeArgs binding).length ∧
    (cachePath cacheDir funcName useHash cacheKeys excludeArgs binding).head?
      = some cacheDir ∧
    (cachePath cacheDir funcName useHash cacheKeys excludeArgs binding).getLast?
      = some "result" := by
  have shape : ∀ (c f : String) (segs : List String),
      3 ≤ ([c] ++ [f] ++ segs ++ ["result"]).length ∧
      ([c] ++ [f] ++ segs ++ ["result"]).head? = some c ∧
      ([c] ++ [f] ++ segs ++ ["result"]).getLast? = some "result" := by
    intro c f segs
    refine ⟨by simp, by simp, ?_⟩
    rw [show [c] ++ [f] ++ segs ++ ["result"] = (c :: f :: segs) ++ ["result"] by simp]
    exact List.getLast?_concat _
  cases useHash <;> exact shape _ _ _

/-- C6: in digest mode the encoded suffix is the single segment `hash_all`
of exactly the `key_val` strings that literal mode would use as segments;
`hash_all` hashes each pair string individually with SHA-512 (512-bit
output, hence at least 256-bit), concatenates the per-pair hex digests in
order and hashes that concatenation; the final digest is a fixed-length
(128-character) lowercase hexadecimal string. -/
theorem c6_digest_mode_structure (cacheDir funcName : String)
    (cacheKeys excludeArgs : Option (List String))
    (binding : List (String × PyValue)) :
    cachePath cacheDir funcName true cacheKeys excludeArgs binding
      = [cacheDir, funcName,
         hash_all ((binding.filter
           (fun kv => keepPair cacheKeys excludeArgs kv.1)).map pairStr),
         "result"] ∧
    cachePath cacheDir funcName false cacheKeys excludeArgs binding
      = [cacheDir, funcName]
        ++ (binding.filter (fun kv => keepPair cacheKeys excludeArgs kv.1)).map pairStr
        ++ ["result"] ∧
    hash_all ((binding.filter (fun kv => keepPair cacheKeys excludeArgs kv.1)).map pairStr)
      = sha512hex (String.join
          (((binding.filter (fun kv => keepPair cacheKeys excludeArgs kv.1)).map
            pairStr).map sha512hex)) ∧
    (hash_all ((binding.filter
        (fun kv => keepPair cacheKeys excludeArgs kv.1)).map pairStr)).length = 128 ∧
    isLowerHex (hash_all ((binding.filter
        (fun kv => keepPair cacheKeys excludeArgs kv.1)).map pairStr)) = true := by
  exact ⟨rfl, rfl, rfl, sha512hex_length _, sha512hex_lowerHex _⟩

/-- C4: for one computation, two calls whose bound arguments are equivalent
after applying declared defaults — whatever mixture of positional and
keyword form and whatever keyword order each call used — derive, under the
same policy and encoding mode, the identical cache path; and the surviving
key pairs appear in the computation's declared parameter order (their names
form a sublist of the declared parameter-name list), never call-site
order. -/
theorem c4_key_determinism (cacheDir funcName : String) (useHash : Bool)
    (cacheKeys excludeArgs : Option (List String)) (params : List Param)
    (args1 args2 : List PyValue) (kwargs1 kwargs2 : List (String × PyValue))
    (b1 b2 : List (String × PyValue))
    (hnodup : (params.map Param.name).Nodup)
    (h1 : bindArgs params args1 kwargs1 = Except.ok b1)
    (h2 : bindArgs params args2 kwargs2 = Except.ok b2)
    (heq : ∀ n, alookup n b1 = alookup n b2) :
    cachePath cacheDir funcName useHash cacheKeys excludeArgs b1
      = cachePath cacheDir funcName useHash cacheKeys excludeArgs b2 ∧
    ((b1.filter (fun kv => keepPair cacheKeys excludeArgs kv.1)).map
      Prod.fst).Sublist (params.map Param.name) := by
  have hf1 := bindArgs_fst params args1 kwargs1 b1 h1
  have hf2 := bindArgs_fst params args2 kwargs2 b2 h2
  have hnd1 : (b1.map Prod.fst).Nodup := by rw [hf1]; exact hnodup
  have hb : b1 = b2 := alookup_ext b1 b2 (hf1.trans hf2.symm) hnd1 heq
  subst hb
  refine ⟨rfl, ?_⟩
  have hs := (List.filter_sublist
    (p := fun kv => keepPair cacheKeys excludeArgs kv.1) b1).map Prod.fst
  rw [hf1] at hs
  exact hs

/-- C2: on an entry whose marker file is present, the call invokes the
wrapped computation zero times and performs no filesystem write, and its
result is exactly: the missing-data corruption error when the data file is
absent, the unpickling corruption error when the data file is present but
fails to deserialize, and the deserialized value otherwise — so the two
corruption cases are surfaced to the caller, never treated as a miss. -/
theorem c2_marker_present_characterization (cfg : CacheConfig)
    (funcName : String) (params : List Param)
    (func : List (String × PyValue) → PyValue)
    (args : List PyValue) (kwargs : List (String × PyValue)) (fs : FileSystem)
    (b : List (String × PyValue))
    (hb : bindArgs params args kwargs = Except.ok b)
    (hval : validatePolicy (b.map Prod.fst) cfg.cacheKeys cfg.excludeArgs
      = Option.none)
    (hm : fs.isfile (markerFileOf cfg funcName b) = true) :
    (cachedCall cfg funcName params func args kwargs fs).1
      = (match fs.read (dataFileOf cfg funcName b) with
         | Option.none => Except.error CallError.corruptMissingData
         | some fd =>
           match unpickleData fd with
           | some v => Except.ok v
           | Option.none => Except.error CallError.corruptUnpickle) ∧
    countCompute (cachedCall cfg funcName params func args kwargs fs).2.2 = 0 ∧
    writesNothing (cachedCall cfg funcName params func args kwargs fs).2.2 = true ∧
    (cachedCall cfg funcName params func args kwargs fs).2.1 = fs := by
  unfold cachedCall
  simp only [hb, hval, hm, if_true]
  cases hd : fs.read (dataFileOf cfg funcName b) with
  | none =>
    simp only [hd]
    refine ⟨?_, ?_, ?_, ?_⟩ <;> trivial
  | some fd =>
    simp only [hd]
    cases hu : unpickleData fd with
    | none => simp only [hu]; refine ⟨?_, ?_, ?_, ?_⟩ <;> trivial
    | some v => simp only [hu]; refine ⟨?_, ?_, ?_, ?_⟩ <;> trivial

/-- C10: a cache hit modifies nothing: on an entry in Complete state whose
data file deserializes successfully, the call returns the deserialized
value, never invokes the wrapped computation, performs no filesystem write,
and leaves the filesystem state unchanged. -/
theorem c10_cache_hit_pure (cfg : CacheConfig) (funcName : String)
    (params : List Param) (func : List (String × PyValue) → PyValue)
    (args : List PyValue) (kwargs : List (String × PyValue)) (fs : FileSystem)
    (b : List (String × PyValue)) (fd : FileData) (v : PyValue)
    (hb : bindArgs params args kwargs = Except.ok b)
    (hval : validatePolicy (b.map Prod.fst) cfg.cacheKeys cfg.excludeArgs
      = Option.none)
    (hm : fs.isfile (markerFileOf cfg funcName b) = true)
    (hd : fs.read (dataFileOf cfg funcName b) = some fd)
    (hu : unpickleData fd = some v) :
    (cachedCall cfg funcName params func args kwargs fs).1 = Except.ok v ∧
    countCompute (cachedCall cfg funcName params func args kwargs fs).2.2 = 0 ∧
    writesNothing (cachedCall cfg funcName params func args kwargs fs).2.2 = true ∧
    (cachedCall cfg funcName params func args kwargs fs).2.1 = fs := by
  unfold cachedCall
  simp only [hb, hval, hm, if_true, hd, hu]
  refine ⟨?_, ?_, ?_, ?_⟩ <;> trivial

/-- C3: on an entry in Partial state (data file present, marker absent) the
call raises no error: it invokes the wrapped computation exactly once,
overwrites the data file with the pickled new result, writes the marker
file, and returns the computed result, leaving the entry Complete. -/
theorem c3_partial_state_recovery (cfg : CacheConfig) (funcName : String)
    (params : List Param) (func : List (String × PyValue) → PyValue)
    (args : List PyValue) (kwargs : List (String × PyValue)) (fs : FileSystem)
    (b : List (String × PyValue))
    (hb : bindArgs params args kwargs = Except.ok b)
    (hval : validatePolicy (b.map Prod.fst) cfg.cacheKeys cfg.excludeArgs
      = Option.none)
    (hm : fs.isfile (markerFileOf cfg funcName b) = false)
    (hd : fs.isfile (dataFileOf cfg funcName b) = true) :
    (cachedCall cfg funcName params func args kwargs fs).1
      = Except.ok (func b) ∧
    countCompute (cachedCall cfg funcName params func args kwargs fs).2.2 = 1 ∧
    (cachedCall cfg funcName params func args kwargs fs).2.1.read
      (dataFileOf cfg funcName b) = some (FileData.pickled (func b)) ∧
    (cachedCall cfg funcName params func args kwargs fs).2.1.read
      (markerFileOf cfg funcName b) = some (FileData.raw "SUCCESS\n") := by
  have hne : dataFileOf cfg funcName b ≠ markerFileOf cfg funcName b :=
    pickle_ne_success (joinPath (entryPathOf cfg funcName b))
  unfold cachedCall
  simp only [hb, hval, hm, hd, if_true, Bool.false_eq_true, if_false]
  refine ⟨?_, ?_, ?_, ?_⟩
  · trivial
  · trivial
  · simp only [FileSystem.set, FileSystem.read, alookup]
    rw [if_neg (fun h => hne h.symm)]
    simp
  · simp only [FileSystem.set, FileSystem.read, alookup]
    simp

/-- C1: on every call, in the trace of file operations, the marker file is
never opened or created before the serialized result has been both fully
written and flushed to the data file: any occurrence of an open-for-write
of the marker file is strictly preceded by a write and by a flush of the
data file, so at no intermediate point of the write path does the marker
exist without fully written data. -/
theorem c1_data_flushed_before_marker (cfg : CacheConfig) (funcName : String)
    (params : List Param) (func : List (String × PyValue) → PyValue)
    (args : List PyValue) (kwargs : List (String × PyValue)) (fs : FileSystem)
    (b : List (String × PyValue))
    (hb : bindArgs params args kwargs = Except.ok b) :
    securedBy (Event.writeFile (dataFileOf cfg funcName b))
      (Event.openWrite (markerFileOf cfg funcName b))
      (cachedCall cfg funcName params func args kwargs fs).2.2 = true ∧
    securedBy (Event.flushFile (dataFileOf cfg funcName b))
      (Event.openWrite (markerFileOf cfg funcName b))
      (cachedCall cfg funcName params func args kwargs fs).2.2 = true := by
  have hne : dataFileOf cfg funcName b ≠ markerFileOf cfg funcName b :=
    pickle_ne_success (joinPath (entryPathOf cfg funcName b))
  unfold cachedCall
  simp only [hb]
  cases hval : validatePolicy (b.map Prod.fst) cfg.cacheKeys cfg.excludeArgs with
  | some ce => exact ⟨rfl, rfl⟩
  | none =>
    cases hm : fs.isfile (markerFileOf cfg funcName b) with
    | true =>
      simp only [hm, if_true]
      cases hd : fs.read (dataFileOf cfg funcName b) with
      | none => simp only [hd]; exact ⟨rfl, rfl⟩
      | some fd =>
        simp only [hd]
        cases hu : unpickleData fd with
        | none => simp only [hu]; exact ⟨rfl, rfl⟩
        | some v => simp only [hu]; exact ⟨rfl, rfl⟩
    | false =>
      simp only [hm, Bool.false_eq_true, if_false]
      cases hdp : fs.isfile (dataFileOf cfg funcName b) with
      | true =>
        simp only [hdp, if_true]
        constructor <;> simp [securedBy, hne]
      | false =>
        simp only [hdp, Bool.false_eq_true, if_false]
        constructor <;> simp [securedBy, hne]

/-- C5 (amended): on the write path the data file and the marker file are
opened for writing directly at their final paths — no temporary file is
opened and no rename is performed — and the data file is written and
flushed before the marker file is opened, so a crash between the two leaves
a Partial (or Empty) entry, not a mismatched pair. -/
theorem c5_direct_write_no_rename (cfg : CacheConfig) (funcName : String)
    (params : List Param) (func : List (String × PyValue) → PyValue)
    (args : List PyValue) (kwargs : List (String × PyValue)) (fs : FileSystem)
    (b : List (String × PyValue))
    (hb : bindArgs params args kwargs = Except.ok b) :
    hasRename (cachedCall cfg funcName params func args kwargs fs).2.2 = false ∧
    opensWritingOnly (dataFileOf cfg funcName b) (markerFileOf cfg funcName b)
      (cachedCall cfg funcName params func args kwargs fs).2.2 = true ∧
    securedBy (Event.flushFile (dataFileOf cfg funcName b))
      (Event.openWrite (markerFileOf cfg funcName b))
      (cachedCall cfg funcName params func args kwargs fs).2.2 = true := by
  have hne : dataFileOf cfg funcName b ≠ markerFileOf cfg funcName b :=
    pickle_ne_success (joinPath (entryPathOf cfg funcName b))
  unfold cachedCall
  simp only [hb]
  cases hval : validatePolicy (b.map Prod.fst) cfg.cacheKeys cfg.excludeArgs with
  | some ce => exact ⟨rfl, rfl, rfl⟩
  | none =>
    cases hm : fs.isfile (markerFileOf cfg funcName b) with
    | true =>
      simp only [hm, if_true]
      cases hd : fs.read (dataFileOf cfg funcName b) with
      | none => simp only [hd]; exact ⟨rfl, rfl, rfl⟩
      | some fd =>
        simp only [hd]
        cases hu : unpickleData fd with
        | none => simp only [hu]; exact ⟨rfl, rfl, rfl⟩
        | some v => simp only [hu]; exact ⟨rfl, rfl, rfl⟩
    | false =>
      simp only [hm, Bool.false_eq_true, if_false]
      cases hdp : fs.isfile (dataFileOf cfg funcName b) with
      | true =>
        simp only [hdp, if_true]
        refine ⟨rfl, ?_, ?_⟩ <;> simp [opensWritingOnly, securedBy, hne]
      | false =>
        simp only [hdp, Bool.false_eq_true, if_false]
        refine ⟨rfl, ?_, ?_⟩ <;> simp [opensWritingOnly, securedBy, hne]

/-- C5 counterexample: on an Empty entry, the concrete call
`f(1)` (literal mode, no policy) opens the final data path
`cache/f/x_1/result.pickle` for writing directly, and its trace contains no
rename at all — refuting the claim that the data and marker files are first
written to a temporary file and atomically renamed into place and that the
final paths are never opened for writing directly. -/
theorem c5_counterexample_final_path_opened_directly :
    Event.openWrite "cache/f/x_1/result.pickle" ∈
      (cachedCall ⟨"cache", false, Option.none, Option.none⟩ "f"
        [⟨"x", Option.none⟩] (fun _ => PyValue.int 7)
        [PyValue.int 1] [] ⟨[]⟩).2.2 ∧
    hasRename
      (cachedCall ⟨"cache", false, Option.none, Option.none⟩ "f"
        [⟨"x", Option.none⟩] (fun _ => PyValue.int 7)
        [PyValue.int 1] [] ⟨[]⟩).2.2 = false := by
  decide

/-- C7 counterexample: with a policy whose `cache_keys` names `"bogus"`, a
parameter absent from the signature `(x)`, the no-argument call `f()`
produces the binding `TypeError` for the missing required argument `x`
(raised by `signature.bind` at line 98), not the configuration error the
claim requires, and its trace is just the binding step — because the code
binds arguments (lines 98-99) before validating the policy
(lines 100-120), validation does not run before argument binding. -/
theorem c7_counterexample_bind_precedes_validation :
    (cachedCall ⟨"cache", false, some ["bogus"], Option.none⟩ "f"
      [⟨"x", Option.none⟩] (fun _ => PyValue.int 7) [] [] ⟨[]⟩).1
      = Except.error (CallError.bindError (BindError.missingArgument "x")) ∧
    (cachedCall ⟨"cache", false, some ["bogus"], Option.none⟩ "f"
      [⟨"x", Option.none⟩] (fun _ => PyValue.int 7) [] [] ⟨[]⟩).2.2
      = [Event.bindCall] := by
  exact ⟨rfl, rfl⟩

lemma firstMissing_some (names : List String) :
    ∀ ks : List String, (∃ k ∈ ks, names.contains k = false) →
      ∃ k2, firstMissing names ks = some k2 := by
  intro ks
  induction ks with
  | nil =>
    rintro ⟨k, hk, _⟩
    cases hk
  | cons a tl ih =>
    rintro ⟨k, hk, hc⟩
    cases ha : names.contains a with
    | true =>
      simp only [firstMissing, ha, if_true]
      apply ih
      rcases List.mem_cons.mp hk with h | h
      · subst h; rw [ha] at hc; cases hc
      · exact ⟨k, h, hc⟩
    | false =>
      refine ⟨a, ?_⟩
      simp only [firstMissing, ha, Bool.false_eq_true, if_false]

lemma validatePolicy_some_of_bad (names : List String)
    (cacheKeys excludeArgs : Option (List String))
    (hbad : (cacheKeys.isSome = true ∧ excludeArgs.isSome = true) ∨
      (∃ ks, cacheKeys = some ks ∧ ∃ k ∈ ks, names.contains k = false) ∨
      (∃ ex, excludeArgs = some ex ∧ ∃ k ∈ ex, names.contains k = false)) :
    ∃ ce, validatePolicy names cacheKeys excludeArgs = some ce := by
  unfold validatePolicy
  cases hck : (match cacheKeys with
               | Option.none => Option.none
               | some ks => firstMissing names ks) with
  | some k => exact ⟨ConfigErr.missingCacheKey k, rfl⟩
  | none =>
    cases hex : (match excludeArgs with
                 | Option.none => Option.none
                 | some ex => firstMissing names ex) with
    | some k => exact ⟨ConfigErr.missingExcludeArg k, rfl⟩
    | none =>
      rcases hbad with ⟨h1, h2⟩ | ⟨ks, hks, hkk⟩ | ⟨ex, hexx, hkk⟩
      · exact ⟨ConfigErr.bothProvided, by simp [h1, h2]⟩
      · obtain ⟨k2, hk2⟩ := firstMissing_some names ks hkk
        rw [hks] at hck
        have hck2 : firstMissing names ks = Option.none := hck
        rw [hk2] at hck2
        cases hck2
      · obtain ⟨k2, hk2⟩ := firstMissing_some names ex hkk
        rw [hexx] at hex
        have hex2 : firstMissing names ex = Option.none := hex
        rw [hk2] at hex2
        cases hex2

lemma alookup_append_single_ne {α : Type} (k k2 : String) (d : α)
    (l : List (String × α)) (h : k2 ≠ k) :
    alookup k (l ++ [(k2, d)]) = alookup k l := by
  induction l with
  | nil => simp [alookup, h]
  | cons kv tl ih =>
    cases kv with
    | mk k3 v =>
      by_cases h3 : k3 = k <;> simp [alookup, h3, ih]

lemma alookup_append_single_eq {α : Type} (k : String) (d : α)
    (l : List (String × α)) (h : alookup k l = Option.none) :
    alookup k (l ++ [(k, d)]) = some d := by
  induction l with
  | nil => simp [alookup]
  | cons kv tl ih =>
    cases kv with
    | mk k3 v =>
      simp only [List.cons_append, alookup] at h ⊢
      by_cases h3 : k3 = k
      · rw [if_pos h3] at h; cases h
      · rw [if_neg h3] at h ⊢
        exact ih h

lemma bindPositional_snoc (kwargs : List (String × PyValue)) (p : Param)
    (d : PyValue) :
    ∀ (args : List PyValue) (ps : List Param),
      (∀ q ∈ ps.take args.length, q.name ≠ p.name) →
      bindPositional (kwargs ++ [(p.name, d)]) ps args
        = bindPositional kwargs ps args := by
  intro args
  induction args with
  | nil => intro ps _; rw [bindPositional_nil, bindPositional_nil]
  | cons v vs ih =>
    intro ps hq
    cases ps with
    | nil => rfl
    | cons q ps2 =>
      have hqname : q.name ≠ p.name :=
        hq q (List.mem_cons_self q (ps2.take vs.length))
      simp only [bindPositional]
      rw [alookup_append_single_ne q.name p.name d kwargs
        (fun h => hqname h.symm)]
      rw [ih ps2 (fun r hr => hq r (List.mem_cons_of_mem q hr))]

lemma bindKeyword_snoc (kwargs : List (String × PyValue)) (p : Param)
    (d : PyValue) (hlk : alookup p.name kwargs = Option.none) :
    ∀ rem : List Param,
      (∀ q ∈ rem, q.name = p.name → q.default = some d) →
      bindKeyword (kwargs ++ [(p.name, d)]) rem = bindKeyword kwargs rem := by
  intro rem
  induction rem with
  | nil => intro _; rfl
  | cons q ps2 ih =>
    intro hq
    simp only [bindKeyword]
    by_cases hn : q.name = p.name
    · rw [hn, alookup_append_single_eq p.name d kwargs hlk, hlk,
        hq q (List.mem_cons_self q ps2) hn,
        ih (fun r hr => hq r (List.mem_cons_of_mem q hr))]
    · rw [alookup_append_single_ne q.name p.name d kwargs (fun h => hn h.symm),
        ih (fun r hr => hq r (List.mem_cons_of_mem q hr))]

lemma bindArgs_snoc_default (params : List Param) (args : List PyValue)
    (kwargs : List (String × PyValue)) (p : Param) (d : PyValue)
    (hnodup : (params.map Param.name).Nodup)
    (hp : p ∈ params) (hd : p.default = some d)
    (hlk : alookup p.name kwargs = Option.none)
    (hpos : p.name ∉ (params.take args.length).map Param.name) :
    bindArgs params args (kwargs ++ [(p.name, d)])
      = bindArgs params args kwargs := by
  have htake : ∀ q ∈ params.take args.length, q.name ≠ p.name := by
    intro q hq he
    exact hpos (he ▸ List.mem_map_of_mem Param.name hq)
  unfold bindArgs
  rw [bindPositional_snoc kwargs p d args params htake]
  cases h1 : bindPositional kwargs params args with
  | error e => rfl
  | ok br =>
    obtain ⟨bound, rem⟩ := br
    dsimp only
    have hrem : rem = params.drop args.length :=
      (bindPositional_fst kwargs args params bound rem h1).2
    have hprem : p ∈ rem := by
      rw [hrem]
      have hsplit : p ∈ params.take args.length ++ params.drop args.length := by
        rw [List.take_append_drop]
        exact hp
      rcases List.mem_append.mp hsplit with h | h
      · exact absurd (List.mem_map_of_mem Param.name h) hpos
      · exact h
    have hqrem : ∀ q ∈ rem, q.name = p.name → q.default = some d := by
      intro q hq he
      have hqparams : q ∈ params := by
        rw [← List.take_append_drop args.length params]
        rw [hrem] at hq
        exact List.mem_append.mpr (Or.inr hq)
      exact (List.inj_on_of_nodup_map hnodup hqparams hp he) ▸ hd
    rw [bindKeyword_snoc kwargs p d hlk rem hqrem]
    cases h2 : bindKeyword kwargs rem with
    | error e => rfl
    | ok rest =>
      dsimp only
      rw [List.find?_append]
      have hsingle : List.find?
          (fun kv => !(rem.any (fun q => q.name == kv.1)))
          [(p.name, d)] = Option.none := by
        have hany : rem.any (fun q => q.name == p.name) = true :=
          List.any_eq_true.mpr ⟨p, hprem, beq_self_eq_true p.name⟩
        simp [List.find?, hany]
      rw [hsingle, Option.or_none]

lemma find?_name_self (params : List Param) (p : Param)
    (hnodup : (params.map Param.name).Nodup) (hp : p ∈ params) :
    params.find? (fun q => q.name == p.name) = some p := by
  induction params with
  | nil => cases hp
  | cons a tl ih =>
    simp only [List.map_cons, List.nodup_cons] at hnodup
    rcases List.mem_cons.mp hp with h | h
    · subst h
      simp [List.find?]
    · by_cases ha : a.name = p.name
      · exact absurd (ha ▸ List.mem_map_of_mem Param.name h) hnodup.1
      · rw [List.find?_cons_of_neg _ (by simpa using ha)]
        exact ih hnodup.2 h

/-- C8 (modelled from the spec, which defines the `exclude_if_default`
variant absent from `src/caching.py`): for a parameter `p` marked
"exclude if default" with declared default `d`, a call omitting `p` and the
same call additionally passing `p` explicitly as the keyword value `d` bind
to identical arguments — hence produce identical cache paths — and a key
pair named `p` is dropped from the key exactly when its bound value equals
(by value) the declared default. -/
theorem c8_exclude_if_default (cacheDir funcName : String)
    (excl exclIfDef : List String) (params : List Param) (p : Param)
    (d : PyValue) (args : List PyValue) (kwargs : List (String × PyValue))
    (hnodup : (params.map Param.name).Nodup)
    (hp : p ∈ params) (hd : p.default = some d)
    (hlk : alookup p.name kwargs = Option.none)
    (hpos : p.name ∉ (params.take args.length).map Param.name)
    (hmem : exclIfDef.contains p.name = true)
    (hxcl : excl.contains p.name = false) :
    bindArgs params args (kwargs ++ [(p.name, d)])
      = bindArgs params args kwargs ∧
    (bindArgs params args (kwargs ++ [(p.name, d)])).map
        (cachePathSpec cacheDir funcName excl exclIfDef params)
      = (bindArgs params args kwargs).map
        (cachePathSpec cacheDir funcName excl exclIfDef params) ∧
    (∀ v, keepPairSpec excl exclIfDef params (p.name, v) = !(d == v)) := by
  have hbind := bindArgs_snoc_default params args kwargs p d hnodup hp hd hlk hpos
  refine ⟨hbind, by rw [hbind], ?_⟩
  intro v
  have hfind : params.find? (fun q => q.name == p.name) = some p :=
    find?_name_self params p hnodup hp
  simp only [keepPairSpec, defaultOf, hfind, hd, hmem, hxcl]
  simp

/-- C7 (amended): provided argument binding succeeds, a call whose policy
supplies both inclusion and exclusion modes together, or names a parameter
absent from the computation's declared signature in either mode, raises the
configuration error before the wrapped computation is invoked and before
any file operation: the result is a `configError`, the filesystem is
unchanged, and the trace is exactly the binding step followed by the
validation step — so validation runs on every call immediately after
argument binding (not before it, as binding errors take precedence). -/
theorem c7_config_error_before_compute_and_io (cfg : CacheConfig)
    (funcName : String) (params : List Param)
    (func : List (String × PyValue) → PyValue)
    (args : List PyValue) (kwargs : List (String × PyValue)) (fs : FileSystem)
    (b : List (String × PyValue))
    (hb : bindArgs params args kwargs = Except.ok b)
    (hbad : (cfg.cacheKeys.isSome = true ∧ cfg.excludeArgs.isSome = true) ∨
      (∃ ks, cfg.cacheKeys = some ks ∧
        ∃ k ∈ ks, (params.map Param.name).contains k = false) ∨
      (∃ ex, cfg.excludeArgs = some ex ∧
        ∃ k ∈ ex, (params.map Param.name).contains k = false)) :
    ∃ ce, cachedCall cfg funcName params func args kwargs fs
      = (Except.error (CallError.configError ce), fs,
         [Event.bindCall, Event.checkPolicy]) := by
  have hnames := bindArgs_fst params args kwargs b hb
  obtain ⟨ce, hce⟩ := validatePolicy_some_of_bad (b.map Prod.fst)
    cfg.cacheKeys cfg.excludeArgs (by rw [hnames]; exact hbad)
  refine ⟨ce, ?_⟩
  unfold cachedCall
  simp only [hb, hce]

/-!
## Concrete instances for the witness theorems
-/

/-- A concrete configuration: literal mode, no key policy. -/
def cfgW : CacheConfig := ⟨"cache", false, Option.none, Option.none⟩

/-- The concrete one-parameter signature `(x)`. -/
def paramsW : List Param := [⟨"x", Option.none⟩]

/-- A concrete wrapped computation. -/
def funcW : List (String × PyValue) → PyValue := fun _ => PyValue.int 7

/-- The binding of the concrete call `f(1)`. -/
def bW : List (String × PyValue) := [("x", PyValue.int 1)]

/-- A filesystem holding only the marker file of the `f(1)` entry. -/
def fsMarkerOnly : FileSystem :=
  ⟨[(markerFileOf cfgW "f" bW, FileData.raw "SUCCESS\n")]⟩

/-- A filesystem holding only a (corrupt) data file of the `f(1)` entry. -/
def fsPartial : FileSystem :=
  ⟨[(dataFileOf cfgW "f" bW, FileData.raw "garbage")]⟩

/-- A filesystem holding a Complete `f(1)` entry with value `3`. -/
def fsComplete : FileSystem :=
  ⟨[(markerFileOf cfgW "f" bW, FileData.raw "SUCCESS\n"),
    (dataFileOf cfgW "f" bW, FileData.pickled (PyValue.int 3))]⟩


/-- Witness for C1: the concrete Empty-state call `f(1)`. -/
theorem c1_data_flushed_before_marker_witness :
    bindArgs paramsW [PyValue.int 1] [] = Except.ok bW ∧
    (securedBy (Event.writeFile (dataFileOf cfgW "f" bW))
        (Event.openWrite (markerFileOf cfgW "f" bW))
        (cachedCall cfgW "f" paramsW funcW [PyValue.int 1] [] ⟨[]⟩).2.2 = true ∧
      securedBy (Event.flushFile (dataFileOf cfgW "f" bW))
        (Event.openWrite (markerFileOf cfgW "f" bW))
        (cachedCall cfgW "f" paramsW funcW [PyValue.int 1] [] ⟨[]⟩).2.2 = true) :=
  ⟨rfl, c1_data_flushed_before_marker cfgW "f" paramsW funcW
    [PyValue.int 1] [] ⟨[]⟩ bW rfl⟩

/-- Witness for C2: the concrete call `f(1)` on an entry whose marker is
present but whose data file is absent. -/
theorem c2_marker_present_characterization_witness :
    (bindArgs paramsW [PyValue.int 1] [] = Except.ok bW ∧
     validatePolicy (bW.map Prod.fst) cfgW.cacheKeys cfgW.excludeArgs
       = Option.none ∧
     fsMarkerOnly.isfile (markerFileOf cfgW "f" bW) = true) ∧
    ((cachedCall cfgW "f" paramsW funcW [PyValue.int 1] [] fsMarkerOnly).1
      = (match fsMarkerOnly.read (dataFileOf cfgW "f" bW) with
         | Option.none => Except.error CallError.corruptMissingData
         | some fd =>
           match unpickleData fd with
           | some v => Except.ok v
           | Option.none => Except.error CallError.corruptUnpickle) ∧
     countCompute
       (cachedCall cfgW "f" paramsW funcW [PyValue.int 1] [] fsMarkerOnly).2.2
       = 0 ∧
     writesNothing
       (cachedCall cfgW "f" paramsW funcW [PyValue.int 1] [] fsMarkerOnly).2.2
       = true ∧
     (cachedCall cfgW "f" paramsW funcW [PyValue.int 1] [] fsMarkerOnly).2.1
       = fsMarkerOnly) :=
  ⟨⟨rfl, rfl, rfl⟩,
   c2_marker_present_characterization cfgW "f" paramsW funcW
     [PyValue.int 1] [] fsMarkerOnly bW rfl rfl rfl⟩

/-- Witness for C3: the concrete call `f(1)` on a Partial entry holding a
corrupt data file and no marker. -/
theorem c3_partial_state_recovery_witness :
    (bindArgs paramsW [PyValue.int 1] [] = Except.ok bW ∧
     validatePolicy (bW.map Prod.fst) cfgW.cacheKeys cfgW.excludeArgs
       = Option.none ∧
     fsPartial.isfile (markerFileOf cfgW "f" bW) = false ∧
     fsPartial.isfile (dataFileOf cfgW "f" bW) = true) ∧
    ((cachedCall cfgW "f" paramsW funcW [PyValue.int 1] [] fsPartial).1
      = Except.ok (funcW bW) ∧
     countCompute
       (cachedCall cfgW "f" paramsW funcW [PyValue.int 1] [] fsPartial).2.2 = 1 ∧
     (cachedCall cfgW "f" paramsW funcW [PyValue.int 1] [] fsPartial).2.1.read
       (dataFileOf cfgW "f" bW) = some (FileData.pickled (funcW bW)) ∧
     (cachedCall cfgW "f" paramsW funcW [PyValue.int 1] [] fsPartial).2.1.read
       (markerFileOf cfgW "f" bW) = some (FileData.raw "SUCCESS\n")) :=
  ⟨⟨rfl, rfl, rfl, rfl⟩,
   c3_partial_state_recovery cfgW "f" paramsW funcW
     [PyValue.int 1] [] fsPartial bW rfl rfl rfl rfl⟩

/-- Witness for C4: the concrete calls `f(1)` (positional) and `f(x=1)`
(keyword) bind equivalently and derive the same path. -/
theorem c4_key_determinism_witness :
    ((paramsW.map Param.name).Nodup ∧
     bindArgs paramsW [PyValue.int 1] [] = Except.ok bW ∧
     bindArgs paramsW [] [("x", PyValue.int 1)] = Except.ok bW) ∧
    (cachePath "cache" "f" false Option.none Option.none bW
      = cachePath "cache" "f" false Option.none Option.none bW ∧
     ((bW.filter (fun kv => keepPair Option.none Option.none kv.1)).map
       Prod.fst).Sublist (paramsW.map Param.name)) :=
  ⟨⟨by decide, rfl, rfl⟩,
   c4_key_determinism "cache" "f" false Option.none Option.none paramsW
     [PyValue.int 1] [] [] [("x", PyValue.int 1)] bW bW
     (by decide) rfl rfl (fun _ => rfl)⟩

/-- Witness for C5 (amended): the concrete Empty-state call `f(1)`. -/
theorem c5_direct_write_no_rename_witness :
    bindArgs paramsW [PyValue.int 1] [] = Except.ok bW ∧
    (hasRename
        (cachedCall cfgW "f" paramsW funcW [PyValue.int 1] [] ⟨[]⟩).2.2
        = false ∧
     opensWritingOnly (dataFileOf cfgW "f" bW) (markerFileOf cfgW "f" bW)
        (cachedCall cfgW "f" paramsW funcW [PyValue.int 1] [] ⟨[]⟩).2.2
        = true ∧
     securedBy (Event.flushFile (dataFileOf cfgW "f" bW))
        (Event.openWrite (markerFileOf cfgW "f" bW))
        (cachedCall cfgW "f" paramsW funcW [PyValue.int 1] [] ⟨[]⟩).2.2
        = true) :=
  ⟨rfl, c5_direct_write_no_rename cfgW "f" paramsW funcW
    [PyValue.int 1] [] ⟨[]⟩ bW rfl⟩

/-- Witness for C7 (amended): the concrete call `f(1)` under a policy
supplying both `cache_keys` and `exclude_args`. -/
theorem c7_config_error_before_compute_and_io_witness :
    (bindArgs paramsW [PyValue.int 1] [] = Except.ok bW ∧
     ((some ["x"] : Option (List String)).isSome = true ∧
      (some ["x"] : Option (List String)).isSome = true)) ∧
    (∃ ce, cachedCall ⟨"cache", false, some ["x"], some ["x"]⟩ "f" paramsW
        funcW [PyValue.int 1] [] ⟨[]⟩
      = (Except.error (CallError.configError ce), (⟨[]⟩ : FileSystem),
         [Event.bindCall, Event.checkPolicy])) :=
  ⟨⟨rfl, rfl, rfl⟩,
   c7_config_error_before_compute_and_io ⟨"cache", false, some ["x"], some ["x"]⟩
     "f" paramsW funcW [PyValue.int 1] [] ⟨[]⟩ bW rfl
     (Or.inl ⟨rfl, rfl⟩)⟩

/-- The declared parameter list of `sum(x, y, verbose=False, z=0)` from
`src/example.py`. -/
def paramsSum : List Param :=
  [⟨"x", Option.none⟩, ⟨"y", Option.none⟩,
   ⟨"verbose", some (PyValue.bool false)⟩, ⟨"z", some (PyValue.int 0)⟩]

/-- Witness for C8: `sum(1, 2)` versus `sum(1, 2, z=0)` under
`exclude=["verbose"]`, `exclude_if_default=["z"]`. -/
theorem c8_exclude_if_default_witness :
    ((paramsSum.map Param.name).Nodup ∧
     (⟨"z", some (PyValue.int 0)⟩ : Param) ∈ paramsSum ∧
     alookup "z" ([] : List (String × PyValue)) = Option.none ∧
     "z" ∉ (paramsSum.take 2).map Param.name ∧
     (["z"] : List String).contains "z" = true ∧
     (["verbose"] : List String).contains "z" = false) ∧
    (bindArgs paramsSum [PyValue.int 1, PyValue.int 2] [("z", PyValue.int 0)]
      = bindArgs paramsSum [PyValue.int 1, PyValue.int 2] [] ∧
     keepPairSpec ["verbose"] ["z"] paramsSum ("z", PyValue.int 5)
      = !(PyValue.int 0 == PyValue.int 5)) :=
  ⟨⟨by decide, by decide, rfl, by decide, rfl, by decide⟩,
   ⟨(c8_exclude_if_default "cache" "sum" ["verbose"] ["z"] paramsSum
     ⟨"z", some (PyValue.int 0)⟩ (PyValue.int 0)
     [PyValue.int 1, PyValue.int 2] []
     (by decide) (by decide) rfl rfl (by decide) rfl (by decide)).1,
    (c8_exclude_if_default "cache" "sum" ["verbose"] ["z"] paramsSum
     ⟨"z", some (PyValue.int 0)⟩ (PyValue.int 0)
     [PyValue.int 1, PyValue.int 2] []
     (by decide) (by decide) rfl rfl (by decide) rfl (by decide)).2.2
     (PyValue.int 5)⟩⟩

/-- Witness for C10: the concrete call `f(1)` on a Complete entry holding
the pickled value `3`. -/
theorem c10_cache_hit_pure_witness :
    (bindArgs paramsW [PyValue.int 1] [] = Except.ok bW ∧
     validatePolicy (bW.map Prod.fst) cfgW.cacheKeys cfgW.excludeArgs
       = Option.none ∧
     fsComplete.isfile (markerFileOf cfgW "f" bW) = true ∧
     fsComplete.read (dataFileOf cfgW "f" bW)
       = some (FileData.pickled (PyValue.int 3)) ∧
     unpickleData (FileData.pickled (PyValue.int 3)) = some (PyValue.int 3)) ∧
    ((cachedCall cfgW "f" paramsW funcW [PyValue.int 1] [] fsComplete).1
       = Except.ok (PyValue.int 3) ∧
     countCompute
       (cachedCall cfgW "f" paramsW funcW [PyValue.int 1] [] fsComplete).2.2
       = 0 ∧
     writesNothing
       (cachedCall cfgW "f" paramsW funcW [PyValue.int 1] [] fsComplete).2.2
       = true ∧
     (cachedCall cfgW "f" paramsW funcW [PyValue.int 1] [] fsComplete).2.1
       = fsComplete) :=
  ⟨⟨rfl, rfl, rfl, rfl, rfl⟩,
   c10_cache_hit_pure cfgW "f" paramsW funcW [PyValue.int 1] [] fsComplete
     bW (FileData.pickled (PyValue.int 3)) (PyValue.int 3)
     rfl rfl rfl rfl rfl⟩
